import Mathlib

/-!
# LibIMU: vectors, quaternions and dual numbers

A shallow embedding of `src/lib/Vector3D.h`, `src/lib/Quaternion.h` and
`src/lib/Dual.h`.

The C++ classes are templates over a scalar type `T`.  The embedding keeps
that genericity: every definition is written over an arbitrary field `T`
(an ordered field where the source compares scalars), so it can be run on
`ℚ` and reasoned about on `ℝ` (exact arithmetic).  The functions of
`<math.h>` that the source calls (`sqrt`, `cos`, `sin`) are passed as
explicit arguments; the theorems instantiate them with `Real.sqrt`,
`Real.cos` and `Real.sin`.

Member functions that mutate the receiver are embedded as functions
returning the new value of the receiver.
-/

namespace IMU

/-! ## Vector3D -/

/-- The class `Vector3D<T>`: protected members `x`, `y`, `z`. -/
structure Vector3D (T : Type) where
  x : T
  y : T
  z : T
deriving DecidableEq

namespace Vector3D

variable {T : Type} [Field T]

/-- Accessor `X()`. -/
def X (v : Vector3D T) : T := v.x

/-- Accessor `Y()`. -/
def Y (v : Vector3D T) : T := v.y

/-- Accessor `Z()`. -/
def Z (v : Vector3D T) : T := v.z

/-- Member `dot`: `x*v.x+y*v.y+z*v.z`. -/
def dot (a v : Vector3D T) : T := a.x * v.x + a.y * v.y + a.z * v.z

/-- Member `cross`. -/
def cross (a v : Vector3D T) : Vector3D T :=
  ⟨a.y * v.z - a.z * v.y, a.z * v.x - a.x * v.z, a.x * v.y - a.y * v.x⟩

/-- Member `length`: `sqrt(dot(*this))`. -/
def length (sqrt : T → T) (a : Vector3D T) : T := sqrt (a.dot a)

/-- Member `norm`:
`T invlen = 1 / this->length(); return Vector3D<T>( x / invlen, y / invlen, z / invlen );` -/
def norm (sqrt : T → T) (a : Vector3D T) : Vector3D T :=
  let invlen := 1 / a.length sqrt
  ⟨a.x / invlen, a.y / invlen, a.z / invlen⟩

/-- Member `normalize` (in place; the result is the new receiver):
`T invlen = 1 / this->length(); x = x * invlen, y = y * invlen, z = z * invlen;` -/
def normalize (sqrt : T → T) (a : Vector3D T) : Vector3D T :=
  let invlen := 1 / a.length sqrt
  let a1 : Vector3D T := { a with x := a.x * invlen }
  let a2 : Vector3D T := { a1 with y := a1.y * invlen }
  let a3 : Vector3D T := { a2 with z := a2.z * invlen }
  a3

/-- Compound `operator *= (const T & rhs)`: `x *= rhs, y *= rhs, z *= rhs`. -/
def mulAssignScalar (a : Vector3D T) (rhs : T) : Vector3D T :=
  let a1 : Vector3D T := { a with x := a.x * rhs }
  let a2 : Vector3D T := { a1 with y := a1.y * rhs }
  let a3 : Vector3D T := { a2 with z := a2.z * rhs }
  a3

end Vector3D

/-- The two kinds of right operand that the free operators of `Vector3D.h` hand
to a compound assignment of `Vector3D<T>`: a scalar `const T &` or a vector
`const Vector3D<T> &`. -/
inductive Operand (T : Type) where
  | scalar (s : T) : Operand T
  | vector (v : Vector3D T) : Operand T

namespace Vector3D

variable {T : Type} [Field T]

/-- The overloads of compound `operator *=` of `Vector3D<T>` (Vector3D.h, lines
88-96).  The class declares `operator *= (const T & rhs)` only: the overload
`operator *= (const Vector3D<T> & rhs)` is commented out (line 90), it has no
body anywhere, and `Vector3D<T>` has no conversion to `T`.  A vector operand
therefore selects no overload, which is the result `none`. -/
def mulAssignOverload (a : Vector3D T) : Operand T → Option (Vector3D T)
  | Operand.scalar s => some (a.mulAssignScalar s)
  | Operand.vector _ => none

/-- Free `operator * (const Vector3D<T> &lhs, const Vector3D<T> &rhs)`
(Vector3D.h, lines 120-121): `Vector3D<T> res = lhs; res *= rhs; return res;`
with `rhs` a vector. -/
def mulVector (lhs rhs : Vector3D T) : Option (Vector3D T) :=
  let res := lhs
  res.mulAssignOverload (Operand.vector rhs)

/-- Free `operator * (const Vector3D<T> &lhs, const T &rhs)` (Vector3D.h, lines
129-130): `Vector3D<T> res = lhs; res *= rhs; return res;` with `rhs` a scalar. -/
def mulScalar (lhs : Vector3D T) (rhs : T) : Option (Vector3D T) :=
  let res := lhs
  res.mulAssignOverload (Operand.scalar rhs)

end Vector3D

/-! ## Quaternion -/

/-- The class `Quaternion<T> : private Vector3D<T>` with the extra member `w`. -/
structure Quaternion (T : Type) extends Vector3D T where
  w : T
deriving DecidableEq

namespace Quaternion

variable {T : Type} [Field T]

/-- Constructor `Quaternion(w, x, y, z) : Vector3D<T>(x, y, z), w(w)`. -/
def make (w x y z : T) : Quaternion T := { x := x, y := y, z := z, w := w }

/-- Constructor `Quaternion(const Vector3D<T> & vec) : Vector3D<T>(vec), w(0)`. -/
def ofVector (vec : Vector3D T) : Quaternion T := { toVector3D := vec, w := 0 }

/-- Modelled from the spec: the angle/axis constructor
`Quaternion(const T & theta, const Vector3D<T> axis)` is only declared in
`Quaternion.h`; its body is not part of the sources.  The specification says it
builds the standard `(cos(θ/2), axis·sin(θ/2))` quaternion, the axis being taken
as given (not normalized). -/
def ofAngleAxis (cos sin : T → T) (theta : T) (axis : Vector3D T) : Quaternion T :=
  make (cos (theta / 2)) (axis.x * sin (theta / 2)) (axis.y * sin (theta / 2))
    (axis.z * sin (theta / 2))

/-- Accessor `W()`. -/
def W (q : Quaternion T) : T := q.w

/-- Accessor `imag()`: the vector part. -/
def imag (q : Quaternion T) : Vector3D T := q.toVector3D

/-- Member `dot`: `w*v.w+this->Vector3D<T>::dot(v)`. -/
def dot (q v : Quaternion T) : T := q.w * v.w + q.toVector3D.dot v.toVector3D

/-- Member `length`: `sqrt(dot(*this))`. -/
def length (sqrt : T → T) (q : Quaternion T) : T := sqrt (q.dot q)

/-- Member `conj`: `Quaternion<T>(this->w, -this->x, -this->y, -this->z)`. -/
def conj (q : Quaternion T) : Quaternion T := make q.w (-q.x) (-q.y) (-q.z)

/-- Binary `operator *` (Quaternion.h, lines 197-207). -/
def mul (q rhs : Quaternion T) : Quaternion T :=
  let w := q.w * rhs.w - q.toVector3D.dot rhs.toVector3D
  let x := q.x * rhs.w + q.w * rhs.x + q.y * rhs.z - q.z * rhs.y
  let y := q.y * rhs.w + q.w * rhs.y + q.z * rhs.x - q.x * rhs.z
  let z := q.z * rhs.w + q.w * rhs.z + q.x * rhs.y - q.y * rhs.x
  make w x y z

/-- Compound `operator *=` with a quaternion (Quaternion.h, lines 209-224):
the four temporaries are computed from the receiver, then stored one by one.
The result is the new receiver. -/
def mulAssign (q rhs : Quaternion T) : Quaternion T :=
  let w := q.w * rhs.w - q.toVector3D.dot rhs.toVector3D
  let x := q.x * rhs.w + q.w * rhs.x + q.y * rhs.z - q.z * rhs.y
  let y := q.y * rhs.w + q.w * rhs.y + q.z * rhs.x - q.x * rhs.z
  let z := q.z * rhs.w + q.w * rhs.z + q.x * rhs.y - q.y * rhs.x
  let q1 : Quaternion T := { q with w := w }
  let q2 : Quaternion T := { q1 with x := x }
  let q3 : Quaternion T := { q2 with y := y }
  let q4 : Quaternion T := { q3 with z := z }
  q4

/-- Member `rot` (Quaternion.h, lines 165-174):
`Quaternion p(vec); p = *this * p; p = p * this->conj(); return Vector3D<T>(p.x, p.y, p.z);` -/
def rot (q : Quaternion T) (vec : Vector3D T) : Vector3D T :=
  let p := ofVector vec
  let p := q.mul p
  let p := p.mul q.conj
  ⟨p.x, p.y, p.z⟩

/-- Member `gVec` (Quaternion.h, lines 187-194). -/
def gVec (q : Quaternion T) : Vector3D T :=
  ⟨2 * (q.x * q.z - q.w * q.y),
   2 * (q.w * q.x + q.y * q.z),
   q.w * q.w - q.x * q.x - q.y * q.y + q.z * q.z⟩

/-- Member `getEulerAngles` (Quaternion.h, lines 176-185):
`psi = atan2(2xy - 2wz, 2ww + 2xx - 1); theta = -asin(2xz + 2wy);`
`phi = atan2(2yz - 2wx, 2ww + 2zz - 1); return Vector3D<T>(phi, theta, psi);` -/
def getEulerAngles (atan2 : T → T → T) (asin : T → T) (q : Quaternion T) : Vector3D T :=
  let psi := atan2 (2 * q.x * q.y - 2 * q.w * q.z) (2 * q.w * q.w + 2 * q.x * q.x - 1)
  let theta := -asin (2 * q.x * q.z + 2 * q.w * q.y)
  let phi := atan2 (2 * q.y * q.z - 2 * q.w * q.x) (2 * q.w * q.w + 2 * q.z * q.z - 1)
  ⟨phi, theta, psi⟩

end Quaternion

namespace Quaternion

variable {T : Type} [LinearOrderedField T]

/-- The constant `static const T MIN_NORM = 1.0e-7`. -/
def MIN_NORM : T := 1 / 10 ^ 7

/-- Member `norm` (Quaternion.h, lines 138-148). -/
def norm (sqrt : T → T) (q : Quaternion T) : Quaternion T :=
  let len := q.length sqrt
  if len > MIN_NORM then
    make (q.w / len) (q.x / len) (q.y / len) (q.z / len)
  else
    q

/-- Member `normalize` (Quaternion.h, lines 150-163), in place; the result is
the new receiver. -/
def normalize (sqrt : T → T) (q : Quaternion T) : Quaternion T :=
  let len := q.length sqrt
  if len > MIN_NORM then
    let q1 : Quaternion T := { q with w := q.w / len }
    let q2 : Quaternion T := { q1 with x := q1.x / len }
    let q3 : Quaternion T := { q2 with y := q2.y / len }
    let q4 : Quaternion T := { q3 with z := q3.z / len }
    q4
  else
    q

end Quaternion

/-! ## Dual

A shallow embedding of `src/lib/Dual.h`.  The functions of `<math.h>` that the
source calls (`exp`, `log`, `powl`, `logl`, `sqrtl`) are explicit arguments;
`fabs` is the absolute value of the ordered field.  A member whose body cannot
be instantiated returns an `Option`, with `none` for the call that selects no
function. -/

/-- The class `Dual<T>`: private members `real` and `epsilon`. -/
structure Dual (T : Type) where
  real : T
  epsilon : T
deriving DecidableEq

namespace Dual

variable {T : Type} [Field T]

/-- Member `conj`: `Dual<T> tmp(real, -epsilon)`. -/
def conj (d : Dual T) : Dual T := ⟨d.real, -d.epsilon⟩

/-- Member `inv` (Dual.h, lines 67-77):
`tmp.real = real / (real * real); tmp.epsilon = -epsilon / (real * real);` -/
def inv (d : Dual T) : Dual T :=
  ⟨d.real / (d.real * d.real), -d.epsilon / (d.real * d.real)⟩

/-- Unary `operator -` (Dual.h, lines 79-86). -/
def neg (d : Dual T) : Dual T := ⟨-d.real, -d.epsilon⟩

/-- Binary `operator *` (Dual.h, lines 88-98):
`tmp.real = real * rhs.real; tmp.epsilon = real * rhs.epsilon + epsilon * rhs.real;` -/
def mul (d rhs : Dual T) : Dual T :=
  ⟨d.real * rhs.real, d.real * rhs.epsilon + d.epsilon * rhs.real⟩

/-- Compound `operator +=` with a dual (Dual.h, lines 100-108). -/
def addAssign (d rhs : Dual T) : Dual T :=
  let d1 : Dual T := { d with real := d.real + rhs.real }
  let d2 : Dual T := { d1 with epsilon := d1.epsilon + rhs.epsilon }
  d2

/-- Compound `operator -=` with a dual (Dual.h, lines 110-118). -/
def subAssign (d rhs : Dual T) : Dual T :=
  let d1 : Dual T := { d with real := d.real - rhs.real }
  let d2 : Dual T := { d1 with epsilon := d1.epsilon - rhs.epsilon }
  d2

/-- Compound `operator *=` with a dual (Dual.h, lines 120-128), two statements
in order; the result is the new receiver:
`real *= rhs.real; epsilon = real * rhs.epsilon + epsilon * rhs.real;` -/
def mulAssign (d rhs : Dual T) : Dual T :=
  let d1 : Dual T := { d with real := d.real * rhs.real }
  let d2 : Dual T := { d1 with epsilon := d1.real * rhs.epsilon + d1.epsilon * rhs.real }
  d2

/-- Compound `operator /=` with a dual (Dual.h, lines 130-138), two statements
in order; the result is the new receiver:
`real = real / rhs.real;`
`epsilon = ( epsilon * rhs.real - real * rhs.epsilon ) / (rhs.real * rhs.real);` -/
def divAssign (d rhs : Dual T) : Dual T :=
  let d1 : Dual T := { d with real := d.real / rhs.real }
  let d2 : Dual T :=
    { d1 with epsilon := (d1.epsilon * rhs.real - d1.real * rhs.epsilon) / (rhs.real * rhs.real) }
  d2

/-- Compound `operator *=` with a scalar (Dual.h, lines 158-166). -/
def mulAssignScalar (d : Dual T) (rhs : T) : Dual T :=
  let d1 : Dual T := { d with real := d.real * rhs }
  let d2 : Dual T := { d1 with epsilon := d1.epsilon * rhs }
  d2

/-- A call `f(x)`, without the `::` qualifier and with one scalar argument, made
inside a member function of `Dual<T>`; `global` is the function of `<math.h>` of
that name.  Lookup of the name starts in the scope of the class.  When the class
declares a member of that name (`memberDeclared`), the member is what the name
denotes: lookup stops there, a class member also switches argument-dependent
lookup off, and `global` is not a candidate.  The members concerned in `Dual.h`,
`exp(void)` (line 40) and `log(void)` (line 41), take no argument, so the call
with one argument selects no function, which is the result `none`.  When the
class has no member of that name, the call is the call of `global`. -/
def unqualifiedCall (memberDeclared : Bool) (global : T → T) (x : T) : Option T :=
  if memberDeclared then none else some (global x)

/-- Member `exp` (Dual.h, line 40): `Dual<T> tmp(exp(real), exp(real) * epsilon)`.
Both calls `exp(real)` are unqualified calls of a name that the class declares
as a member; `exp` is the function of `<math.h>`. -/
def exp (exp : T → T) (d : Dual T) : Option (Dual T) :=
  match unqualifiedCall true exp d.real, unqualifiedCall true exp d.real with
  | some e1, some e2 => some ⟨e1, e2 * d.epsilon⟩
  | _, _ => none

/-- Member `log` (Dual.h, line 41): `Dual<T> tmp(log(real), epsilon/real)`.  The
call `log(real)` is an unqualified call of a name that the class declares as a
member; `log` is the function of `<math.h>`. -/
def log (log : T → T) (d : Dual T) : Option (Dual T) :=
  match unqualifiedCall true log d.real with
  | some l => some ⟨l, d.epsilon / d.real⟩
  | none => none

/-- Member `sqrt` (Dual.h, lines 220-230):
`tmp.real = ::sqrtl(real); tmp.epsilon = epsilon / (2 * ::sqrtl(real));` -/
def sqrt (sqrtl : T → T) (d : Dual T) : Dual T :=
  ⟨sqrtl d.real, d.epsilon / (2 * sqrtl d.real)⟩

/-- Member `norm` (Dual.h, lines 232-237): `::sqrtl(real*real + epsilon*epsilon)`. -/
def norm (sqrtl : T → T) (d : Dual T) : T := sqrtl (d.real * d.real + d.epsilon * d.epsilon)

/-- Modelled from the spec: the member `sin` is only declared in `Dual.h` (line
50); its body is not part of the sources.  The specification says it computes
the scalar function on the real component and applies the derivative multiplier
`cos(real)` to the epsilon component. -/
def sin (sin cos : T → T) (d : Dual T) : Dual T := ⟨sin d.real, cos d.real * d.epsilon⟩

/-- Modelled from the spec: the member `cos` is only declared in `Dual.h` (line
51); its body is not part of the sources.  The specification says it computes
the scalar function on the real component and applies the derivative multiplier
`-sin(real)` to the epsilon component. -/
def cos (sin cos : T → T) (d : Dual T) : Dual T := ⟨cos d.real, -sin d.real * d.epsilon⟩

/-- Modelled from the spec: the member `tan` is only declared in `Dual.h` (line
52); its body is not part of the sources.  The specification says it computes
the scalar function on the real component and applies the derivative multiplier
`1/cos²(real)` to the epsilon component. -/
def tan (tan cos : T → T) (d : Dual T) : Dual T :=
  ⟨tan d.real, 1 / (cos d.real * cos d.real) * d.epsilon⟩

end Dual

namespace Dual

variable {T : Type} [LinearOrderedField T]

/-- The constant `static const T min_real = 1e-15` of both `pow` overloads. -/
def min_real : T := 1 / 10 ^ 15

/-- The guard shared, verbatim, by both `pow` overloads (Dual.h, lines 177-183
and 203-209), as the value of `real_checked` after it:
`real_checked = real;`
`if (fabs(real_checked) < min_real) {`
`  if (real_checked >= 0) real_checked = min_real;`
`  if (real_checked < 0) real_checked = -min_real; }` -/
def real_checked (real : T) : T :=
  let rc := real
  if |rc| < min_real then
    let rc := if rc ≥ 0 then min_real else rc
    let rc := if rc < 0 then -min_real else rc
    rc
  else
    rc

/-- Member `pow(const T & rhs)` (Dual.h, lines 168-191):
`epsilon_mul = rhs * powl(real_checked, (rhs - 1));`
`tmp.real = powl(real, rhs); tmp.epsilon = epsilon * epsilon_mul;` -/
def pow (powl : T → T → T) (d : Dual T) (rhs : T) : Dual T :=
  let rc := real_checked d.real
  let epsilon_mul := rhs * powl rc (rhs - 1)
  ⟨powl d.real rhs, d.epsilon * epsilon_mul⟩

/-- Member `pow(const Dual<T> & rhs)` (Dual.h, lines 193-218):
`epsilon_mul = rhs.real * powl(real_checked, (rhs.real - 1));`
`epsilon_add = rhs.epsilon * ::powl(real_checked, rhs.real) * ::logl(real);`
`tmp.real = powl(real, rhs.real); tmp.epsilon = epsilon * epsilon_mul + epsilon_add;` -/
def powDual (powl : T → T → T) (logl : T → T) (d rhs : Dual T) : Dual T :=
  let rc := real_checked d.real
  let epsilon_mul := rhs.real * powl rc (rhs.real - 1)
  let epsilon_add := rhs.epsilon * powl rc rhs.real * logl d.real
  ⟨powl d.real rhs.real, d.epsilon * epsilon_mul + epsilon_add⟩

end Dual

/-! ## Theorems -/

section Theorems

variable {T : Type} [Field T]

/-- C1: binary `operator *` returns the Hamilton product: real part
`q.w*r.w - (q.x*r.x + q.y*r.y + q.z*r.z)` and vector part
`(q.x*r.w + q.w*r.x + q.y*r.z - q.z*r.y, q.y*r.w + q.w*r.y + q.z*r.x - q.x*r.z,
q.z*r.w + q.w*r.z + q.x*r.y - q.y*r.x)`; compound `operator *=` leaves exactly
that value in the receiver, all four components being computed from the old
value of the receiver. -/
theorem Quaternion.mul_hamilton (q r : Quaternion T) :
    q.mul r = Quaternion.make
        (q.w * r.w - (q.x * r.x + q.y * r.y + q.z * r.z))
        (q.x * r.w + q.w * r.x + q.y * r.z - q.z * r.y)
        (q.y * r.w + q.w * r.y + q.z * r.x - q.x * r.z)
        (q.z * r.w + q.w * r.z + q.x * r.y - q.y * r.x)
      ∧ q.mulAssign r = Quaternion.make
        (q.w * r.w - (q.x * r.x + q.y * r.y + q.z * r.z))
        (q.x * r.w + q.w * r.x + q.y * r.z - q.z * r.y)
        (q.y * r.w + q.w * r.y + q.z * r.x - q.x * r.z)
        (q.z * r.w + q.w * r.z + q.x * r.y - q.y * r.x) := by
  constructor <;> rfl

/-- C2: for every quaternion with `w*w+x*x+y*y+z*z = 1` and every vector `v`,
`rot` preserves the squared length, `dot(q.rot(v), q.rot(v)) = dot(v, v)`, hence
also the length, whatever the square root function is. -/
theorem Quaternion.rot_preserves_length (q : Quaternion T) (v : Vector3D T)
    (h : q.w * q.w + q.x * q.x + q.y * q.y + q.z * q.z = 1) :
    (q.rot v).dot (q.rot v) = v.dot v
      ∧ ∀ sqrt : T → T, (q.rot v).length sqrt = v.length sqrt := by
  have key : (q.rot v).dot (q.rot v) = v.dot v := by
    simp only [Quaternion.rot, Quaternion.mul, Quaternion.conj, Quaternion.ofVector,
      Quaternion.make, Vector3D.dot]
    linear_combination
      ((q.w * q.w + q.x * q.x + q.y * q.y + q.z * q.z + 1)
        * (v.x * v.x + v.y * v.y + v.z * v.z)) * h
  exact ⟨key, fun sqrt => by simp only [Vector3D.length, key]⟩

/-- Witness for C2 at the unit quaternion `(1/2, 1/2, 1/2, 1/2)` over `ℚ` and the
vector `(1, 2, 3)`. -/
theorem Quaternion.rot_preserves_length_witness :
    ((1 / 2 : ℚ) * (1 / 2) + (1 / 2) * (1 / 2) + (1 / 2) * (1 / 2) + (1 / 2) * (1 / 2) = 1)
      ∧ ((Quaternion.make (1 / 2 : ℚ) (1 / 2) (1 / 2) (1 / 2)).rot ⟨1, 2, 3⟩).dot
          ((Quaternion.make (1 / 2 : ℚ) (1 / 2) (1 / 2) (1 / 2)).rot ⟨1, 2, 3⟩)
        = Vector3D.dot (⟨1, 2, 3⟩ : Vector3D ℚ) ⟨1, 2, 3⟩ :=
  ⟨by norm_num,
   (Quaternion.rot_preserves_length (Quaternion.make (1 / 2 : ℚ) (1 / 2) (1 / 2) (1 / 2))
      ⟨1, 2, 3⟩ (by norm_num [Quaternion.make])).1⟩

/-- C3: the quaternion product is not commutative.  Exact instance:
`(0,1,0,0)*(0,0,1,0) = (0,0,0,1)` while `(0,0,1,0)*(0,1,0,0) = (0,0,0,-1)`.  The
90 degree rotations about X and about Y, `(c,c,0,0)` and `(c,0,c,0)` with
`c = cos(π/4)`, do not commute either. -/
theorem Quaternion.mul_not_comm :
    (Quaternion.make (0 : ℝ) 1 0 0).mul (Quaternion.make 0 0 1 0) = Quaternion.make 0 0 0 1
      ∧ (Quaternion.make (0 : ℝ) 0 1 0).mul (Quaternion.make 0 1 0 0)
          = Quaternion.make 0 0 0 (-1)
      ∧ (Quaternion.make (0 : ℝ) 1 0 0).mul (Quaternion.make 0 0 1 0)
          ≠ (Quaternion.make (0 : ℝ) 0 1 0).mul (Quaternion.make 0 1 0 0)
      ∧ (Quaternion.make (Real.cos (Real.pi / 4)) (Real.cos (Real.pi / 4)) 0 0).mul
            (Quaternion.make (Real.cos (Real.pi / 4)) 0 (Real.cos (Real.pi / 4)) 0)
          ≠ (Quaternion.make (Real.cos (Real.pi / 4)) 0 (Real.cos (Real.pi / 4)) 0).mul
            (Quaternion.make (Real.cos (Real.pi / 4)) (Real.cos (Real.pi / 4)) 0 0)
      ∧ ∃ q1 q2 : Quaternion ℝ, q1.mul q2 ≠ q2.mul q1 := by
  have h3 : (Quaternion.make (0 : ℝ) 1 0 0).mul (Quaternion.make 0 0 1 0)
      ≠ (Quaternion.make (0 : ℝ) 0 1 0).mul (Quaternion.make 0 1 0 0) := by
    intro h
    have hz := congrArg (fun p : Quaternion ℝ => p.z) h
    norm_num [Quaternion.mul, Quaternion.make, Vector3D.dot] at hz
  refine ⟨?_, ?_, h3, ?_, ⟨_, _, h3⟩⟩
  · norm_num [Quaternion.mul, Quaternion.make, Vector3D.dot]
  · norm_num [Quaternion.mul, Quaternion.make, Vector3D.dot]
  · intro h
    have hz := congrArg (fun p : Quaternion ℝ => p.z) h
    have hc : Real.cos (Real.pi / 4) ≠ 0 := by
      rw [Real.cos_pi_div_four]; positivity
    simp only [Quaternion.mul, Quaternion.make, Vector3D.dot] at hz
    apply hc
    have h2 : Real.cos (Real.pi / 4) * Real.cos (Real.pi / 4) = 0 := by linarith
    exact mul_self_eq_zero.mp h2

/-- C4: for every angle `θ`, the quaternion built from the angle/axis pair
`(θ, (1,0,0))` is `(cos(θ/2), sin(θ/2), 0, 0)`, and `rot` applied to `(0,1,0)`
with it gives `(0, cos θ, sin θ)`. -/
theorem Quaternion.angle_axis_rot (θ : ℝ) :
    Quaternion.ofAngleAxis Real.cos Real.sin θ ⟨1, 0, 0⟩
        = Quaternion.make (Real.cos (θ / 2)) (Real.sin (θ / 2)) 0 0
      ∧ (Quaternion.ofAngleAxis Real.cos Real.sin θ ⟨1, 0, 0⟩).rot ⟨0, 1, 0⟩
        = ⟨0, Real.cos θ, Real.sin θ⟩ := by
  have hc : Real.cos θ = Real.cos (θ / 2) * Real.cos (θ / 2)
      - Real.sin (θ / 2) * Real.sin (θ / 2) := by
    have h1 := Real.cos_two_mul (θ / 2)
    have h2 := Real.sin_sq_add_cos_sq (θ / 2)
    rw [show 2 * (θ / 2) = θ by ring] at h1
    rw [h1]; nlinarith
  have hs : Real.sin θ = 2 * Real.sin (θ / 2) * Real.cos (θ / 2) := by
    have h1 := Real.sin_two_mul (θ / 2)
    rw [show 2 * (θ / 2) = θ by ring] at h1
    exact h1
  constructor
  · simp [Quaternion.ofAngleAxis]
  · simp only [Quaternion.ofAngleAxis, Quaternion.rot, Quaternion.mul, Quaternion.conj,
      Quaternion.ofVector, Quaternion.make, Vector3D.dot, hc, hs]
    congr 1 <;> ring

/-- C5: `gVec` returns `(2(xz-wy), 2(wx+yz), w*w-x*x-y*y+z*z)`; this is the third
row of the matrix of the rotation operator `rot` of the same quaternion, that
is, the Z components of the images of the three basis vectors; and `gVec` of the
identity quaternion `(1,0,0,0)` is `(0,0,1)`. -/
theorem Quaternion.gVec_third_row (q : Quaternion T) :
    q.gVec = ⟨2 * (q.x * q.z - q.w * q.y), 2 * (q.w * q.x + q.y * q.z),
              q.w * q.w - q.x * q.x - q.y * q.y + q.z * q.z⟩
      ∧ q.gVec = ⟨(q.rot ⟨1, 0, 0⟩).Z, (q.rot ⟨0, 1, 0⟩).Z, (q.rot ⟨0, 0, 1⟩).Z⟩
      ∧ (Quaternion.make (1 : T) 0 0 0).gVec = ⟨0, 0, 1⟩ := by
  refine ⟨rfl, ?_, ?_⟩
  · simp only [Quaternion.gVec, Quaternion.rot, Quaternion.mul, Quaternion.conj,
      Quaternion.ofVector, Quaternion.make, Vector3D.dot, Vector3D.Z]
    congr 1 <;> ring
  · simp [Quaternion.gVec, Quaternion.make]

/-- C6: when `length()` is at most `MIN_NORM`, `norm()` returns the quaternion
unchanged and `normalize()` leaves the receiver unchanged (the branch that
divides is not taken).  This holds for every scalar field and every square root
function. -/
theorem Quaternion.norm_guard {K : Type} [LinearOrderedField K] (sqrt : K → K)
    (q : Quaternion K) (h : q.length sqrt ≤ Quaternion.MIN_NORM) :
    q.norm sqrt = q ∧ q.normalize sqrt = q := by
  have hn : ¬ (q.length sqrt > Quaternion.MIN_NORM) := not_lt.mpr h
  constructor
  · simp only [Quaternion.norm, hn, if_false]
  · simp only [Quaternion.normalize, hn, if_false]

/-- Witness for C6 at the zero quaternion `(0,0,0,0)` over `ℝ`, whose length
is `0`. -/
theorem Quaternion.norm_guard_witness :
    Quaternion.length Real.sqrt (Quaternion.make (0 : ℝ) 0 0 0) = 0
      ∧ Quaternion.length Real.sqrt (Quaternion.make (0 : ℝ) 0 0 0) ≤ Quaternion.MIN_NORM
      ∧ (Quaternion.make (0 : ℝ) 0 0 0).norm Real.sqrt = Quaternion.make 0 0 0 0
      ∧ (Quaternion.make (0 : ℝ) 0 0 0).normalize Real.sqrt = Quaternion.make 0 0 0 0 :=
  have h0 : Quaternion.length Real.sqrt (Quaternion.make (0 : ℝ) 0 0 0) = 0 := by
    simp [Quaternion.length, Quaternion.dot, Quaternion.make, Vector3D.dot]
  have hle : Quaternion.length Real.sqrt (Quaternion.make (0 : ℝ) 0 0 0)
      ≤ Quaternion.MIN_NORM := by
    rw [h0]; norm_num [Quaternion.MIN_NORM]
  ⟨h0, hle, Quaternion.norm_guard Real.sqrt (Quaternion.make (0 : ℝ) 0 0 0) hle⟩

/-- C7: when `length() > MIN_NORM`, `norm()` returns
`(w/len, x/len, y/len, z/len)` with `len = length()`, the dot product of that
value with itself is `1`, and `normalize()` leaves the same value in the
receiver. -/
theorem Quaternion.norm_unit (q : Quaternion ℝ)
    (h : q.length Real.sqrt > Quaternion.MIN_NORM) :
    q.norm Real.sqrt
        = Quaternion.make (q.w / q.length Real.sqrt) (q.x / q.length Real.sqrt)
            (q.y / q.length Real.sqrt) (q.z / q.length Real.sqrt)
      ∧ (q.norm Real.sqrt).dot (q.norm Real.sqrt) = 1
      ∧ q.normalize Real.sqrt = q.norm Real.sqrt := by
  have hpos : (0 : ℝ) < q.length Real.sqrt :=
    lt_trans (by norm_num [Quaternion.MIN_NORM]) h
  have hd : 0 < q.dot q := Real.sqrt_pos.mp hpos
  have hsq : q.length Real.sqrt * q.length Real.sqrt = q.dot q :=
    Real.mul_self_sqrt hd.le
  have e1 : q.norm Real.sqrt
        = Quaternion.make (q.w / q.length Real.sqrt) (q.x / q.length Real.sqrt)
            (q.y / q.length Real.sqrt) (q.z / q.length Real.sqrt) := by
    simp only [Quaternion.norm, h, if_true]
  refine ⟨e1, ?_, ?_⟩
  · rw [e1]
    simp only [Quaternion.dot, Quaternion.make, Vector3D.dot]
    have hne : q.length Real.sqrt ≠ 0 := ne_of_gt hpos
    field_simp
    have := hsq
    simp only [Quaternion.dot, Vector3D.dot] at this
    linarith
  · rw [e1]
    simp only [Quaternion.normalize, h, if_true, Quaternion.make]

/-- Witness for C7 at the quaternion `(0,3,0,4)` over `ℝ`, of length `5`. -/
theorem Quaternion.norm_unit_witness :
    Quaternion.length Real.sqrt (Quaternion.make (0 : ℝ) 3 0 4) > Quaternion.MIN_NORM
      ∧ (Quaternion.make (0 : ℝ) 3 0 4).norm Real.sqrt
        = Quaternion.make
            (0 / Quaternion.length Real.sqrt (Quaternion.make (0 : ℝ) 3 0 4))
            (3 / Quaternion.length Real.sqrt (Quaternion.make (0 : ℝ) 3 0 4))
            (0 / Quaternion.length Real.sqrt (Quaternion.make (0 : ℝ) 3 0 4))
            (4 / Quaternion.length Real.sqrt (Quaternion.make (0 : ℝ) 3 0 4))
      ∧ ((Quaternion.make (0 : ℝ) 3 0 4).norm Real.sqrt).dot
          ((Quaternion.make (0 : ℝ) 3 0 4).norm Real.sqrt) = 1
      ∧ (Quaternion.make (0 : ℝ) 3 0 4).normalize Real.sqrt
          = (Quaternion.make (0 : ℝ) 3 0 4).norm Real.sqrt :=
  have hl : Quaternion.length Real.sqrt (Quaternion.make (0 : ℝ) 3 0 4) = 5 := by
    simp only [Quaternion.length, Quaternion.dot, Quaternion.make, Vector3D.dot]
    rw [show (0 : ℝ) * 0 + (3 * 3 + 0 * 0 + 4 * 4) = 5 ^ 2 by norm_num]
    exact Real.sqrt_sq (by norm_num)
  have hgt : Quaternion.length Real.sqrt (Quaternion.make (0 : ℝ) 3 0 4)
      > Quaternion.MIN_NORM := by
    rw [hl]; norm_num [Quaternion.MIN_NORM]
  ⟨hgt, Quaternion.norm_unit (Quaternion.make (0 : ℝ) 3 0 4) hgt⟩

/-- C8: `conj()` keeps `w` and negates `x`, `y`, `z`, and conjugating twice
gives the quaternion back. -/
theorem Quaternion.conj_involution (q : Quaternion T) :
    (q.conj.w = q.w ∧ q.conj.x = -q.x ∧ q.conj.y = -q.y ∧ q.conj.z = -q.z)
      ∧ q.conj.conj = q := by
  refine ⟨⟨rfl, rfl, rfl, rfl⟩, ?_⟩
  simp [Quaternion.conj, Quaternion.make]

/-- C9 (the code at the failing input): for `v = (2,0,0)`, of length `2`,
`Vector3D::norm` returns `(4,0,0)`, of length `4`: it divides by `invlen`, that
is, it multiplies by the length.  The result is not `v` divided by its length,
which is what `normalize` leaves in the receiver, `(1,0,0)`. -/
theorem Vector3D.norm_scales_by_length :
    Vector3D.length Real.sqrt (⟨2, 0, 0⟩ : Vector3D ℝ) = 2
      ∧ Vector3D.norm Real.sqrt (⟨2, 0, 0⟩ : Vector3D ℝ) = ⟨4, 0, 0⟩
      ∧ Vector3D.norm Real.sqrt (⟨2, 0, 0⟩ : Vector3D ℝ)
          ≠ ⟨2 / Vector3D.length Real.sqrt (⟨2, 0, 0⟩ : Vector3D ℝ),
             0 / Vector3D.length Real.sqrt (⟨2, 0, 0⟩ : Vector3D ℝ),
             0 / Vector3D.length Real.sqrt (⟨2, 0, 0⟩ : Vector3D ℝ)⟩
      ∧ Vector3D.length Real.sqrt (Vector3D.norm Real.sqrt (⟨2, 0, 0⟩ : Vector3D ℝ)) = 4
      ∧ Vector3D.normalize Real.sqrt (⟨2, 0, 0⟩ : Vector3D ℝ) = ⟨1, 0, 0⟩ := by
  have hl : Vector3D.length Real.sqrt (⟨2, 0, 0⟩ : Vector3D ℝ) = 2 := by
    simp only [Vector3D.length, Vector3D.dot]
    rw [show (2 : ℝ) * 2 + 0 * 0 + 0 * 0 = 2 ^ 2 by norm_num]
    exact Real.sqrt_sq (by norm_num)
  have hn : Vector3D.norm Real.sqrt (⟨2, 0, 0⟩ : Vector3D ℝ) = ⟨4, 0, 0⟩ := by
    simp only [Vector3D.norm, hl]
    norm_num
  refine ⟨hl, hn, ?_, ?_, ?_⟩
  · rw [hn, hl]
    intro h
    have hx := congrArg Vector3D.x h
    norm_num at hx
  · rw [hn]
    simp only [Vector3D.length, Vector3D.dot]
    rw [show (4 : ℝ) * 4 + 0 * 0 + 0 * 0 = 4 ^ 2 by norm_num]
    exact Real.sqrt_sq (by norm_num)
  · simp only [Vector3D.normalize, hl]
    norm_num

/-- C10: for every unit vector `v` (`dot(v,v) = 1`), `v.norm()` has length `1` and
`v.normalize()` leaves in the receiver the value that `v.norm()` returns. -/
theorem Vector3D.norm_of_unit (v : Vector3D ℝ) (h : v.dot v = 1) :
    (v.norm Real.sqrt).length Real.sqrt = 1
      ∧ v.normalize Real.sqrt = v.norm Real.sqrt := by
  have hl : v.length Real.sqrt = 1 := by
    simp only [Vector3D.length, h, Real.sqrt_one]
  have hn : v.norm Real.sqrt = v := by
    simp only [Vector3D.norm, hl]
    simp
  have hz : v.normalize Real.sqrt = v := by
    simp only [Vector3D.normalize, hl]
    simp
  rw [hn, hz]
  exact ⟨hl, rfl⟩

/-- Witness for C10 at the unit vector `(3/5, 4/5, 0)` over `ℝ`. -/
theorem Vector3D.norm_of_unit_witness :
    Vector3D.dot (⟨3 / 5, 4 / 5, 0⟩ : Vector3D ℝ) ⟨3 / 5, 4 / 5, 0⟩ = 1
      ∧ (Vector3D.norm Real.sqrt (⟨3 / 5, 4 / 5, 0⟩ : Vector3D ℝ)).length Real.sqrt = 1
      ∧ Vector3D.normalize Real.sqrt (⟨3 / 5, 4 / 5, 0⟩ : Vector3D ℝ)
          = Vector3D.norm Real.sqrt (⟨3 / 5, 4 / 5, 0⟩ : Vector3D ℝ) :=
  have h : Vector3D.dot (⟨3 / 5, 4 / 5, 0⟩ : Vector3D ℝ) ⟨3 / 5, 4 / 5, 0⟩ = 1 := by
    norm_num [Vector3D.dot]
  ⟨h, Vector3D.norm_of_unit ⟨3 / 5, 4 / 5, 0⟩ h⟩

/-- C11 (the code at the failing input): the free `operator *` on two vectors
hands its vector operand to compound `operator *=`, of which `Vector3D<T>` has
the scalar overload only (the vector one is commented out), so no overload is
selected and no product is returned: for `(1,2,3) * (4,5,6)` the result is not
the componentwise product `(4,10,18)`.  The product with a scalar does multiply
every component. -/
theorem Vector3D.mul_vector_undefined :
    Vector3D.mulVector (⟨1, 2, 3⟩ : Vector3D ℚ) ⟨4, 5, 6⟩ = none
      ∧ Vector3D.mulVector (⟨1, 2, 3⟩ : Vector3D ℚ) ⟨4, 5, 6⟩
          ≠ some ⟨1 * 4, 2 * 5, 3 * 6⟩
      ∧ (∀ a b : Vector3D ℚ, Vector3D.mulVector a b = none)
      ∧ Vector3D.mulScalar (⟨1, 2, 3⟩ : Vector3D ℚ) 4 = some ⟨4, 8, 12⟩ := by
  refine ⟨rfl, ?_, fun _ _ => rfl, ?_⟩
  · simp [Vector3D.mulVector, Vector3D.mulAssignOverload]
  · simp [Vector3D.mulScalar, Vector3D.mulAssignOverload, Vector3D.mulAssignScalar]
    norm_num

/-- C12: for all duals `(a,b)` and `(c,d)`, binary `operator *` returns
`(a*c, a*d + b*c)`. -/
theorem Dual.mul_formula (a b c d : T) :
    Dual.mul ⟨a, b⟩ ⟨c, d⟩ = ⟨a * c, a * d + b * c⟩ := rfl

/-- C13 (the code at the failing input): compound `operator *=` overwrites `real`
before it computes `epsilon`, so `(2,3) *= (5,7)` leaves `(10, 10*7 + 3*5) =
(10,85)` in the receiver, while binary `operator *` returns `(10, 2*7 + 3*5) =
(10,29)`.  In general the receiver becomes `(a*c, a*c*d + b*c)`. -/
theorem Dual.mulAssign_uses_new_real :
    Dual.mulAssign (⟨2, 3⟩ : Dual ℚ) ⟨5, 7⟩ = ⟨10, 85⟩
      ∧ Dual.mul (⟨2, 3⟩ : Dual ℚ) ⟨5, 7⟩ = ⟨10, 29⟩
      ∧ Dual.mulAssign (⟨2, 3⟩ : Dual ℚ) ⟨5, 7⟩ ≠ ⟨2 * 5, 2 * 7 + 3 * 5⟩
      ∧ ∀ a b c d : ℚ, Dual.mulAssign ⟨a, b⟩ ⟨c, d⟩ = ⟨a * c, a * c * d + b * c⟩ := by
  refine ⟨?_, ?_, ?_, fun a b c d => rfl⟩
  · norm_num [Dual.mulAssign]
  · norm_num [Dual.mul]
  · norm_num [Dual.mulAssign]

/-- C14 (the code at the failing input): compound `operator /=` overwrites `real`
before it computes `epsilon`, so `(6,1) /= (2,1)` leaves `(3, (1*2 - 3*1)/4) =
(3, -1/4)` in the receiver, not `(6/2, (1*2 - 6*1)/2^2) = (3, -1)`.  In general
the receiver becomes `(a/c, (b*c - (a/c)*d)/(c*c))`. -/
theorem Dual.divAssign_uses_new_real :
    Dual.divAssign (⟨6, 1⟩ : Dual ℚ) ⟨2, 1⟩ = ⟨3, -1 / 4⟩
      ∧ Dual.divAssign (⟨6, 1⟩ : Dual ℚ) ⟨2, 1⟩ ≠ ⟨6 / 2, (1 * 2 - 6 * 1) / 2 ^ 2⟩
      ∧ ∀ a b c d : ℚ,
          Dual.divAssign ⟨a, b⟩ ⟨c, d⟩ = ⟨a / c, (b * c - a / c * d) / (c * c)⟩ := by
  refine ⟨?_, ?_, fun a b c d => rfl⟩
  · norm_num [Dual.divAssign]
  · norm_num [Dual.divAssign]

/-- C15: for every dual `x = (a,b)` with `a ≠ 0`, `x.inv()` equals
`(1/a, -b/a^2)`, and `x * x.inv() = (1, 0)`. -/
theorem Dual.inv_reciprocal (a b : T) (h : a ≠ 0) :
    Dual.inv ⟨a, b⟩ = ⟨1 / a, -b / a ^ 2⟩
      ∧ Dual.mul ⟨a, b⟩ (Dual.inv ⟨a, b⟩) = ⟨1, 0⟩ := by
  constructor
  · simp only [Dual.inv, Dual.mk.injEq]
    constructor
    · field_simp
    · rw [sq]
  · simp only [Dual.inv, Dual.mul, Dual.mk.injEq]
    constructor
    · field_simp
    · field_simp; ring

/-- Witness for C15 at the dual `(2,3)` over `ℚ`. -/
theorem Dual.inv_reciprocal_witness :
    (2 : ℚ) ≠ 0
      ∧ Dual.inv (⟨2, 3⟩ : Dual ℚ) = ⟨1 / 2, -3 / 2 ^ 2⟩
      ∧ Dual.mul (⟨2, 3⟩ : Dual ℚ) (Dual.inv ⟨2, 3⟩) = ⟨1, 0⟩ :=
  ⟨by norm_num, Dual.inv_reciprocal (2 : ℚ) 3 (by norm_num)⟩

/-- When `|a| < 1e-15` the guard of `pow` sets `real_checked` to `1e-15` for
`a ≥ 0` and to `-1e-15` for `a < 0`. -/
theorem Dual.real_checked_of_lt {K : Type} [LinearOrderedField K] (a : K)
    (h : |a| < (1 : K) / 10 ^ 15) :
    Dual.real_checked a = if 0 ≤ a then (1 : K) / 10 ^ 15 else -(1 / 10 ^ 15) := by
  have hlt : |a| < (Dual.min_real : K) := h
  have hpos : (0 : K) < Dual.min_real := by
    unfold Dual.min_real; positivity
  simp only [Dual.real_checked, hlt, if_true, ge_iff_le]
  by_cases ha : 0 ≤ a
  · simp only [ha, if_true]
    rw [if_neg (not_lt.mpr hpos.le)]
    rfl
  · simp only [ha, if_false]
    rw [if_pos (not_le.mp ha)]
    rfl

/-- C17 (counterexample): for the dual `(0,1)`, whose real part is below
`1e-15`, the real part of `pow(-1.0)` is the power function applied to the base
`0` itself, not to the clamped base `1e-15`; and `pow(Dual(2,1))` applies the
power function to the base `0` for the real part and the logarithm to `0` in the
epsilon part.  So not every power and logarithm is taken at the clamped base. -/
theorem Dual.pow_clamp_counterexample :
    (∀ powl : ℚ → ℚ → ℚ, (Dual.pow powl ⟨0, 1⟩ (-1)).real = powl 0 (-1))
      ∧ (¬ ∀ powl : ℚ → ℚ → ℚ,
            (Dual.pow powl ⟨0, 1⟩ (-1)).real = powl (1 / 10 ^ 15) (-1))
      ∧ (∀ (powl : ℚ → ℚ → ℚ) (logl : ℚ → ℚ),
            Dual.powDual powl logl ⟨0, 1⟩ ⟨2, 1⟩
              = ⟨powl 0 2,
                 1 * (2 * powl (1 / 10 ^ 15) (2 - 1)) + 1 * powl (1 / 10 ^ 15) 2 * logl 0⟩)
      ∧ (¬ ∀ (powl : ℚ → ℚ → ℚ) (logl : ℚ → ℚ),
            Dual.powDual powl logl ⟨0, 1⟩ ⟨2, 1⟩
              = ⟨powl (1 / 10 ^ 15) 2,
                 1 * (2 * powl (1 / 10 ^ 15) (2 - 1))
                   + 1 * powl (1 / 10 ^ 15) 2 * logl (1 / 10 ^ 15)⟩) := by
  have hlt : |(0 : ℚ)| < (1 : ℚ) / 10 ^ 15 := by
    rw [abs_zero]; norm_num
  have hrc : Dual.real_checked (0 : ℚ) = 1 / 10 ^ 15 := by
    rw [Dual.real_checked_of_lt 0 hlt]; simp
  refine ⟨fun powl => rfl, ?_, ?_, ?_⟩
  · intro hall
    have h1 := hall (fun base _ => base)
    simp only [Dual.pow] at h1
    norm_num at h1
  · intro powl logl
    simp only [Dual.powDual, hrc]
  · intro hall
    have h1 := congrArg Dual.real (hall (fun base _ => base) (fun x => x))
    simp only [Dual.powDual] at h1
    norm_num at h1

/-- C17 (amended): for every dual with `|real| < 1e-15`, both `pow` overloads
take the derivative multiplier `n * base^(n-1)`, and in the dual exponent case
the power `base^n` of the added term, at the base clamped to `1e-15`
(`real ≥ 0`) or `-1e-15` (`real < 0`); the real part of the result is the power
function at the real part as it is, not clamped. -/
theorem Dual.pow_clamp {K : Type} [LinearOrderedField K] (powl : K → K → K) (logl : K → K)
    (d rhs : Dual K) (n : K) (h : |d.real| < (1 : K) / 10 ^ 15) :
    (Dual.pow powl d n).real = powl d.real n
      ∧ (Dual.pow powl d n).epsilon
          = d.epsilon
              * (n * powl (if 0 ≤ d.real then (1 : K) / 10 ^ 15 else -(1 / 10 ^ 15)) (n - 1))
      ∧ (Dual.powDual powl logl d rhs).real = powl d.real rhs.real
      ∧ ∃ t : K, (Dual.powDual powl logl d rhs).epsilon
          = d.epsilon
              * (rhs.real
                  * powl (if 0 ≤ d.real then (1 : K) / 10 ^ 15 else -(1 / 10 ^ 15))
                      (rhs.real - 1))
            + rhs.epsilon
                * powl (if 0 ≤ d.real then (1 : K) / 10 ^ 15 else -(1 / 10 ^ 15)) rhs.real
                * logl t := by
  refine ⟨rfl, ?_, rfl, ⟨d.real, ?_⟩⟩
  · simp only [Dual.pow, Dual.real_checked_of_lt d.real h]
  · simp only [Dual.powDual, Dual.real_checked_of_lt d.real h]

/-- Witness for the amended C17 at the dual `(0,1)` over `ℚ`, exponent `-1`, with
a power function that returns its base. -/
theorem Dual.pow_clamp_witness :
    |(⟨0, 1⟩ : Dual ℚ).real| < (1 : ℚ) / 10 ^ 15
      ∧ (Dual.pow (fun base _ => base) (⟨0, 1⟩ : Dual ℚ) (-1)).epsilon
          = 1 * (-1 * (if (0 : ℚ) ≤ (⟨0, 1⟩ : Dual ℚ).real then (1 : ℚ) / 10 ^ 15
                        else -(1 / 10 ^ 15))) :=
  have h : |(⟨0, 1⟩ : Dual ℚ).real| < (1 : ℚ) / 10 ^ 15 := by
    simp only [abs_zero]; norm_num
  ⟨h, (Dual.pow_clamp (fun base _ => base) (fun x => x) (⟨0, 1⟩ : Dual ℚ) ⟨2, 1⟩ (-1) h).2.1⟩

/-- C18 (the code at the failing input): inside the class the unqualified call
`log(real)` of the member `log()` names the member `log(void)` itself, not the
logarithm of `<math.h>`, and a member without parameter cannot take the
argument: `Dual(1,1).log()` returns no value, in particular not
`(ln 1, 1/1) = (0, 1)`, and the same holds for every dual `(a,b)`. -/
theorem Dual.log_selects_no_function :
    Dual.log Real.log (⟨1, 1⟩ : Dual ℝ) = none
      ∧ Dual.log Real.log (⟨1, 1⟩ : Dual ℝ) ≠ some ⟨0, 1⟩
      ∧ (⟨Real.log 1, 1 / 1⟩ : Dual ℝ) = ⟨0, 1⟩
      ∧ ∀ a b : ℝ, Dual.log Real.log ⟨a, b⟩ = none := by
  refine ⟨rfl, ?_, ?_, fun _ _ => rfl⟩
  · simp [Dual.log, Dual.unqualifiedCall]
  · rw [Real.log_one, div_one]

/-- C19: for every dual `(a,b)`, `sin()` returns `(sin a, b*cos a)`, `cos()`
returns `(cos a, -b*sin a)` and `tan()` returns `(tan a, b/cos²a)`; and
`Dual(0,1).sin()` has real part `0` and epsilon `1`. -/
theorem Dual.trig_formulas (a b : ℝ) :
    Dual.sin Real.sin Real.cos ⟨a, b⟩ = ⟨Real.sin a, b * Real.cos a⟩
      ∧ Dual.cos Real.sin Real.cos ⟨a, b⟩ = ⟨Real.cos a, -b * Real.sin a⟩
      ∧ Dual.tan Real.tan Real.cos ⟨a, b⟩ = ⟨Real.tan a, b / Real.cos a ^ 2⟩
      ∧ Dual.sin Real.sin Real.cos (⟨0, 1⟩ : Dual ℝ) = ⟨0, 1⟩ := by
  refine ⟨?_, ?_, ?_, ?_⟩
  · simp only [Dual.sin, Dual.mk.injEq, true_and]
    ring
  · simp only [Dual.cos, Dual.mk.injEq, true_and]
    ring
  · simp only [Dual.tan, Dual.mk.injEq, true_and]
    rw [sq, one_div, inv_mul_eq_div]
  · simp [Dual.sin]

/-- C20: for all quaternions `q1`, `q2` and every vector `v`, rotating by the
product is rotating in sequence, `(q1*q2).rot(v) = q1.rot(q2.rot(v))`, with no
assumption on the lengths; and the real part of `q * p * conj(q)` is `0` for a
pure imaginary `p`, so `rot` discards nothing. -/
theorem Quaternion.rot_mul (q1 q2 : Quaternion T) (v : Vector3D T) :
    (q1.mul q2).rot v = q1.rot (q2.rot v)
      ∧ ((q2.mul (Quaternion.ofVector v)).mul q2.conj).w = 0 := by
  constructor
  · simp only [Quaternion.rot, Quaternion.mul, Quaternion.conj, Quaternion.ofVector,
      Quaternion.make, Vector3D.dot, Vector3D.mk.injEq]
    refine ⟨?_, ?_, ?_⟩ <;> ring
  · simp only [Quaternion.mul, Quaternion.conj, Quaternion.ofVector,
      Quaternion.make, Vector3D.dot]
    ring

/-- C21: the squared length is multiplicative under the quaternion product,
`(q1*q2).dot(q1*q2) = q1.dot(q1) * q2.dot(q2)`; hence the product of two unit
quaternions is a unit quaternion. -/
theorem Quaternion.dot_mul (q1 q2 : Quaternion T) :
    (q1.mul q2).dot (q1.mul q2) = q1.dot q1 * q2.dot q2
      ∧ (q1.dot q1 = 1 → q2.dot q2 = 1 → (q1.mul q2).dot (q1.mul q2) = 1) := by
  have key : (q1.mul q2).dot (q1.mul q2) = q1.dot q1 * q2.dot q2 := by
    simp only [Quaternion.mul, Quaternion.dot, Quaternion.make, Vector3D.dot]
    ring
  refine ⟨key, fun h1 h2 => ?_⟩
  rw [key, h1, h2, mul_one]

/-- Witness for C21 at the unit quaternions `(1/2,1/2,1/2,1/2)` and
`(0,3/5,0,4/5)` over `ℚ`. -/
theorem Quaternion.dot_mul_witness :
    (Quaternion.make (1 / 2 : ℚ) (1 / 2) (1 / 2) (1 / 2)).dot
        (Quaternion.make (1 / 2 : ℚ) (1 / 2) (1 / 2) (1 / 2)) = 1
      ∧ (Quaternion.make (0 : ℚ) (3 / 5) 0 (4 / 5)).dot
          (Quaternion.make (0 : ℚ) (3 / 5) 0 (4 / 5)) = 1
      ∧ ((Quaternion.make (1 / 2 : ℚ) (1 / 2) (1 / 2) (1 / 2)).mul
            (Quaternion.make (0 : ℚ) (3 / 5) 0 (4 / 5))).dot
          ((Quaternion.make (1 / 2 : ℚ) (1 / 2) (1 / 2) (1 / 2)).mul
            (Quaternion.make (0 : ℚ) (3 / 5) 0 (4 / 5))) = 1 :=
  have h1 : (Quaternion.make (1 / 2 : ℚ) (1 / 2) (1 / 2) (1 / 2)).dot
      (Quaternion.make (1 / 2 : ℚ) (1 / 2) (1 / 2) (1 / 2)) = 1 := by
    norm_num [Quaternion.dot, Quaternion.make, Vector3D.dot]
  have h2 : (Quaternion.make (0 : ℚ) (3 / 5) 0 (4 / 5)).dot
      (Quaternion.make (0 : ℚ) (3 / 5) 0 (4 / 5)) = 1 := by
    norm_num [Quaternion.dot, Quaternion.make, Vector3D.dot]
  ⟨h1, h2, (Quaternion.dot_mul (Quaternion.make (1 / 2 : ℚ) (1 / 2) (1 / 2) (1 / 2))
    (Quaternion.make (0 : ℚ) (3 / 5) 0 (4 / 5))).2 h1 h2⟩

/-- C22: `getEulerAngles` computes `theta` as `-asin(2*x*z + 2*w*y)`, and for
every quaternion with `w*w+x*x+y*y+z*z = 1` that argument lies in `[-1, 1]`. -/
theorem Quaternion.euler_asin_arg_bounded {K : Type} [LinearOrderedField K]
    (q : Quaternion K) (h : q.w * q.w + q.x * q.x + q.y * q.y + q.z * q.z = 1) :
    (∀ (atan2 : K → K → K) (asin : K → K),
        (q.getEulerAngles atan2 asin).y = -asin (2 * q.x * q.z + 2 * q.w * q.y))
      ∧ -1 ≤ 2 * q.x * q.z + 2 * q.w * q.y
      ∧ 2 * q.x * q.z + 2 * q.w * q.y ≤ 1 := by
  refine ⟨fun _ _ => rfl, ?_, ?_⟩
  · nlinarith [sq_nonneg (q.x + q.z), sq_nonneg (q.w + q.y)]
  · nlinarith [sq_nonneg (q.x - q.z), sq_nonneg (q.w - q.y)]

/-- Witness for C22 at the unit quaternion `(1/2,1/2,1/2,1/2)` over `ℚ`, where the
argument of `asin` is exactly `1`. -/
theorem Quaternion.euler_asin_arg_bounded_witness :
    ((Quaternion.make (1 / 2 : ℚ) (1 / 2) (1 / 2) (1 / 2)).w
          * (Quaternion.make (1 / 2 : ℚ) (1 / 2) (1 / 2) (1 / 2)).w
        + (Quaternion.make (1 / 2 : ℚ) (1 / 2) (1 / 2) (1 / 2)).x
          * (Quaternion.make (1 / 2 : ℚ) (1 / 2) (1 / 2) (1 / 2)).x
        + (Quaternion.make (1 / 2 : ℚ) (1 / 2) (1 / 2) (1 / 2)).y
          * (Quaternion.make (1 / 2 : ℚ) (1 / 2) (1 / 2) (1 / 2)).y
        + (Quaternion.make (1 / 2 : ℚ) (1 / 2) (1 / 2) (1 / 2)).z
          * (Quaternion.make (1 / 2 : ℚ) (1 / 2) (1 / 2) (1 / 2)).z = 1)
      ∧ 2 * (Quaternion.make (1 / 2 : ℚ) (1 / 2) (1 / 2) (1 / 2)).x
            * (Quaternion.make (1 / 2 : ℚ) (1 / 2) (1 / 2) (1 / 2)).z
          + 2 * (Quaternion.make (1 / 2 : ℚ) (1 / 2) (1 / 2) (1 / 2)).w
            * (Quaternion.make (1 / 2 : ℚ) (1 / 2) (1 / 2) (1 / 2)).y ≤ 1 :=
  have h : (Quaternion.make (1 / 2 : ℚ) (1 / 2) (1 / 2) (1 / 2)).w
          * (Quaternion.make (1 / 2 : ℚ) (1 / 2) (1 / 2) (1 / 2)).w
        + (Quaternion.make (1 / 2 : ℚ) (1 / 2) (1 / 2) (1 / 2)).x
          * (Quaternion.make (1 / 2 : ℚ) (1 / 2) (1 / 2) (1 / 2)).x
        + (Quaternion.make (1 / 2 : ℚ) (1 / 2) (1 / 2) (1 / 2)).y
          * (Quaternion.make (1 / 2 : ℚ) (1 / 2) (1 / 2) (1 / 2)).y
        + (Quaternion.make (1 / 2 : ℚ) (1 / 2) (1 / 2) (1 / 2)).z
          * (Quaternion.make (1 / 2 : ℚ) (1 / 2) (1 / 2) (1 / 2)).z = 1 := by
    norm_num [Quaternion.make]
  ⟨h, (Quaternion.euler_asin_arg_bounded
    (Quaternion.make (1 / 2 : ℚ) (1 / 2) (1 / 2) (1 / 2)) h).2.2⟩

/-- C23: for every dual `x = (a,b)` with `a > 0`, `sqrt()` returns
`(sqrt a, b/(2*sqrt a))`, and its dual product with itself is `x`. -/
theorem Dual.sqrt_mul_self (a b : ℝ) (h : 0 < a) :
    Dual.sqrt Real.sqrt ⟨a, b⟩ = ⟨Real.sqrt a, b / (2 * Real.sqrt a)⟩
      ∧ (Dual.sqrt Real.sqrt ⟨a, b⟩).mul (Dual.sqrt Real.sqrt ⟨a, b⟩) = ⟨a, b⟩ := by
  refine ⟨rfl, ?_⟩
  have hs : 0 < Real.sqrt a := Real.sqrt_pos.mpr h
  have hne : Real.sqrt a ≠ 0 := ne_of_gt hs
  have hsq : Real.sqrt a * Real.sqrt a = a := Real.mul_self_sqrt h.le
  simp only [Dual.sqrt, Dual.mul, Dual.mk.injEq]
  refine ⟨hsq, ?_⟩
  field_simp
  ring

/-- Witness for C23 at the dual `(4,1)` over `ℝ`, whose square root is
`(2, 1/4)`. -/
theorem Dual.sqrt_mul_self_witness :
    (0 : ℝ) < 4
      ∧ Dual.sqrt Real.sqrt (⟨4, 1⟩ : Dual ℝ) = ⟨2, 1 / 4⟩
      ∧ (Dual.sqrt Real.sqrt (⟨4, 1⟩ : Dual ℝ)).mul (Dual.sqrt Real.sqrt ⟨4, 1⟩) = ⟨4, 1⟩ := by
  have h : (0 : ℝ) < 4 := by norm_num
  have h4 : Real.sqrt 4 = 2 := by
    rw [show (4 : ℝ) = 2 ^ 2 by norm_num]
    exact Real.sqrt_sq (by norm_num)
  refine ⟨h, ?_, (Dual.sqrt_mul_self 4 1 h).2⟩
  rw [(Dual.sqrt_mul_self 4 1 h).1, h4]
  norm_num

end Theorems

end IMU
